import Mathlib

/-!
Shallow embedding of the session core of the auth backend.

The embedded code is `src/modules/auth/auth.controller.ts` (register, login,
refreshTokens, logout, getJWTs) and `src/modules/auth/services/auth.service.ts`
(findUserByAccessToken).  The persistence layer (`RefreshSessionService`, a
repository over the `RefreshSession` entity) is not among the repository's
files; its operations are modelled from the spec's Credential Store contract
(§4.2) together with the criteria-based semantics the controller relies on
(`delete({fingerprint})` / `delete({token})` delete every matching row,
`findOne({fingerprint, token})` matches both fields exactly, `remove(session)`
deletes by primary key, `create` persists and fails with `DuplicateToken` on a
token collision).

External capabilities (bcrypt, the JWT signer, uuid `v4()`, `Date.now()`) are
oracles: deterministic function parameters bundled in `Env`, the current time
an `Int` argument, and each freshly generated uuid / database id an explicit
argument of the operation that generates it.
-/

/-- A user row (`User` entity): identifier, profile, login, bcrypt-hashed
password. -/
structure User where
  id : Nat
  firstName : String
  lastName : String
  login : String
  password : String
deriving DecidableEq, Repr

/-- Modelled from the spec: `user.public` (the `UserPublicData` returned by the
controller) exposes the identifier, profile fields and login, never the
password hash; the `User` entity lives in the user module, which is not among
the repository's files. -/
structure UserPublicData where
  id : Nat
  firstName : String
  lastName : String
  login : String
deriving DecidableEq, Repr

/-- Projection of a user onto its public data. -/
def User.publicData (u : User) : UserPublicData :=
  ⟨u.id, u.firstName, u.lastName, u.login⟩

/-- A `RefreshSession` row: id, owning user (the entity's `user` relation),
client fingerprint, refresh token value, absolute expiry timestamp
(milliseconds, as `Number(session.expiresAt)`). -/
structure RefreshSession where
  id : Nat
  user : User
  fingerprint : String
  token : String
  expiresAt : Int
deriving DecidableEq, Repr

/-- The refresh-session table. -/
structure Store where
  sessions : List RefreshSession
deriving DecidableEq, Repr

/-- Failures surfaced by the embedded operations: `badRequest` is NestJS's
`BadRequestException` with its message; `duplicateToken` is the Credential
Store's internal collision failure (spec §4.2). -/
inductive Err where
  | badRequest (message : String)
  | duplicateToken
deriving DecidableEq, Repr

/-- The external capabilities: bcrypt hashing (salt folded into the oracle),
bcrypt comparison, JWT signing of `{userId}`, and the configured
`jwt.refreshToken.expiresIn`. -/
structure Env where
  hashPassword : String → String
  comparePasswords : String → String → Bool
  sign : Nat → String
  refreshExpiresIn : Int

/-- Modelled from the spec: `findOne({fingerprint, token})` — exact match on
both fields (§4.2 `findSession`). -/
def Store.findOne (st : Store) (fingerprint token : String) : Option RefreshSession :=
  st.sessions.find? (fun s => s.fingerprint == fingerprint && s.token == token)

/-- Modelled from the spec: `delete({fingerprint})` — criteria deletion, removes
every session whose fingerprint matches, whoever owns it. -/
def Store.deleteByFingerprint (st : Store) (fingerprint : String) : Store :=
  ⟨st.sessions.filter (fun s => s.fingerprint != fingerprint)⟩

/-- Modelled from the spec: `delete({token})` — criteria deletion, removes every
session whose token matches (used by logout, §4.2 does not need the
fingerprint). -/
def Store.deleteByToken (st : Store) (token : String) : Store :=
  ⟨st.sessions.filter (fun s => s.token != token)⟩

/-- Modelled from the spec: `remove(session)` — deletes the given entity by its
primary key (§4.2 `deleteSession`, idempotent removal). -/
def Store.remove (st : Store) (sess : RefreshSession) : Store :=
  ⟨st.sessions.filter (fun s => s.id != sess.id)⟩

/-- Modelled from the spec: `create(session)` — persists the session; fails with
`DuplicateToken` if the generated token collides with an existing one
(§4.2 `createSession`). -/
def Store.create (st : Store) (sess : RefreshSession) : Except Err Store :=
  if st.sessions.any (fun s => s.token == sess.token) then .error .duplicateToken
  else .ok ⟨sess :: st.sessions⟩

/-- The whole mutable state the controller touches: the user table and the
refresh-session table. -/
structure AppState where
  users : List User
  store : Store
deriving DecidableEq, Repr

/-- The access/refresh pair `getJWTs` returns (delivered as cookies by the
excluded transport layer). -/
structure JWTs where
  accessToken : String
  refreshToken : String
deriving DecidableEq, Repr

/-- Embeds `AuthController.getJWTs(user, fingerprint)`: signs `{userId: user.id}`,
creates a refresh session `{user, fingerprint, expiresAt: now + expiresIn,
token: v4()}` (the freshly generated uuid and row id are the `freshToken` /
`freshId` oracle arguments), returns both tokens. -/
def getJWTs (env : Env) (now : Int) (st : Store) (user : User) (fingerprint : String)
    (freshId : Nat) (freshToken : String) : Except Err (Store × JWTs) :=
  let accessToken := env.sign user.id
  match st.create ⟨freshId, user, fingerprint, freshToken, now + env.refreshExpiresIn⟩ with
  | .error e => .error e
  | .ok st2 => .ok (st2, ⟨accessToken, freshToken⟩)

/-- Body of `POST /auth/register`. -/
structure RegisterDto where
  firstName : String
  lastName : String
  login : String
  password : String
  fingerprint : String
deriving DecidableEq, Repr

/-- Body of `POST /auth/login`. -/
structure LoginDto where
  login : String
  password : String
  fingerprint : String
deriving DecidableEq, Repr

/-- Embeds `AuthController.register`: rejects an already-registered login, otherwise
persists the user with the hashed password (fresh id `freshUserId`) and issues
a session via `getJWTs`.  Each operation returns the state as left by the
writes performed before its exit point (there is no transaction in the code),
paired with its outcome. -/
def register (env : Env) (now : Int) (app : AppState) (dto : RegisterDto)
    (freshUserId freshSessionId : Nat) (freshToken : String) :
    AppState × Except Err UserPublicData :=
  match app.users.find? (fun u => u.login == dto.login) with
  | some _ => (app, .error (.badRequest "User with this login has been already registered."))
  | none =>
    let user : User := ⟨freshUserId, dto.firstName, dto.lastName, dto.login,
      env.hashPassword dto.password⟩
    let users2 := user :: app.users
    match getJWTs env now app.store user dto.fingerprint freshSessionId freshToken with
    | .error e => (⟨users2, app.store⟩, .error e)
    | .ok (st2, _) => (⟨users2, st2⟩, .ok user.publicData)

/-- Embeds `AuthController.login`: a missing user and a failed password comparison
throw the one `BadRequestException("Invalid credentials.")` built before either
check; on a match every session with the supplied fingerprint is deleted, then
`getJWTs` issues the new pair. -/
def login (env : Env) (now : Int) (app : AppState) (dto : LoginDto)
    (freshSessionId : Nat) (freshToken : String) :
    AppState × Except Err (UserPublicData × JWTs) :=
  match app.users.find? (fun u => u.login == dto.login) with
  | none => (app, .error (.badRequest "Invalid credentials."))
  | some user =>
    if env.comparePasswords dto.password user.password then
      let st1 := app.store.deleteByFingerprint dto.fingerprint
      match getJWTs env now st1 user dto.fingerprint freshSessionId freshToken with
      | .error e => (⟨app.users, st1⟩, .error e)
      | .ok (st2, jwts) => (⟨app.users, st2⟩, .ok (user.publicData, jwts))
    else (app, .error (.badRequest "Invalid credentials."))

/-- Embeds `AuthController.refreshTokens`: the refresh-token cookie may be absent
(`none`) and a JS-falsy empty cookie also fails; the session must match
fingerprint and token exactly; `Date.now() - Number(session.expiresAt) >= 0`
rejects an expired session; on success the matched session is removed and
`getJWTs` issues the new pair for `session.user`. -/
def refreshTokens (env : Env) (now : Int) (app : AppState) (fingerprint : String)
    (cookieToken : Option String) (freshSessionId : Nat) (freshToken : String) :
    AppState × Except Err JWTs :=
  match cookieToken with
  | none => (app, .error (.badRequest "Invalid refresh token"))
  | some token =>
    if token == "" then (app, .error (.badRequest "Invalid refresh token"))
    else
      match app.store.findOne fingerprint token with
      | none => (app, .error (.badRequest "Invalid refresh token"))
      | some session =>
        if 0 ≤ now - session.expiresAt then (app, .error (.badRequest "Invalid refresh token"))
        else
          let st1 := app.store.remove session
          match getJWTs env now st1 session.user fingerprint freshSessionId freshToken with
          | .error e => (⟨app.users, st1⟩, .error e)
          | .ok (st2, jwts) => (⟨app.users, st2⟩, .ok jwts)

/-- Embeds `AuthController.logout`: clears the cookies (transport, not modelled) and
deletes every session matching the presented token; it never fails. -/
def logout (app : AppState) (token : String) : AppState × Except Err Unit :=
  (⟨app.users, app.store.deleteByToken token⟩, .ok ())

/-- Embeds `AuthService.findUserByAccessToken`: `jwtService.verifyAsync` throws on a
bad, expired or malformed token (oracle `verifyTok` returning `none`), the
catch returns `null`; on success the user is looked up by the `userId`
claim. -/
def findUserByAccessToken (verifyTok : String → Option Nat) (users : List User)
    (token : String) : Option User :=
  match verifyTok token with
  | some userId => users.find? (fun u => u.id == userId)
  | none => none

/-- Whether a session counts as Active at `now`: strictly before its expiry,
the negation of the controller's `Date.now() - Number(session.expiresAt) >= 0`
check. -/
def isActive (now : Int) (s : RefreshSession) : Bool :=
  decide (now < s.expiresAt)

/-- How many stored sessions are Active at `now` for the (user, fingerprint)
pair. -/
def countActive (st : Store) (now : Int) (userId : Nat) (fp : String) : Nat :=
  st.sessions.countP (fun s => s.user.id == userId && s.fingerprint == fp && isActive now s)

/-- Token uniqueness across the stored sessions (spec §3: the token is unique
across all sessions; maintained by `create`'s collision check). -/
def TokensUniq (st : Store) : Prop :=
  ∀ s1 ∈ st.sessions, ∀ s2 ∈ st.sessions, s1.token = s2.token → s1 = s2

/-- Every stored session's owning user is a row of the user table. -/
def SessionUsersOk (app : AppState) : Prop :=
  ∀ s ∈ app.store.sessions, s.user ∈ app.users

/-- The store states reachable from an empty system through the public
operations.  Steps run at the current time, `tick` lets time advance; the
oracle arguments (dtos, generated tokens, row ids, cookie values) are
arbitrary, except that a registered user's database-generated id is fresh,
as a primary key is. -/
inductive Reach (env : Env) : AppState → Int → Prop where
  | init : ∀ now, Reach env ⟨[], ⟨[]⟩⟩ now
  | tick : ∀ app now now2, Reach env app now → now ≤ now2 → Reach env app now2
  | stepRegister : ∀ app now dto uid sid tok, Reach env app now →
      (∀ u ∈ app.users, u.id ≠ uid) →
      Reach env (register env now app dto uid sid tok).1 now
  | stepLogin : ∀ app now dto sid tok, Reach env app now →
      Reach env (login env now app dto sid tok).1 now
  | stepRefresh : ∀ app now fp ctok sid tok, Reach env app now →
      Reach env (refreshTokens env now app fp ctok sid tok).1 now
  | stepLogout : ∀ app now tok, Reach env app now →
      Reach env (logout app tok).1 now

/-- The inductive invariant: session owners are users, tokens are unique, and
each (user, fingerprint) pair has at most one Active session. -/
def SysInv (app : AppState) (now : Int) : Prop :=
  SessionUsersOk app ∧ TokensUniq app.store ∧
    ∀ uid fp, countActive app.store now uid fp ≤ 1

/-- A concrete instantiation of the external capabilities, for evaluating the
operations on closed inputs: hashing appends `"h"`, comparison checks that
relation, signing renders the user id, the refresh lifetime is 10 time
units. -/
def envW : Env :=
  ⟨fun p => p ++ "h", fun p hash => p ++ "h" == hash, fun uid => "acc" ++ toString uid, 10⟩

/-- A concrete user row for closed evaluations (its password hash matches the
plaintext "pw" under `envW`). -/
def userW : User := ⟨1, "Ada", "L", "ada", "pwh"⟩

/-- The empty system state. -/
def app0 : AppState := ⟨[], ⟨[]⟩⟩

/-- A store holding one live session of `userW` (fingerprint "f", token "t",
expires at 100). -/
def sessW : RefreshSession := ⟨1, userW, "f", "t", 100⟩

/-- System state with `userW` registered and `sessW` stored. -/
def appW : AppState := ⟨[userW], ⟨[sessW]⟩⟩

/-- The state `refreshTokens envW 0 appW "f" (some "t") 2 "t2"` leaves behind:
the matched session replaced by the rotated one. -/
def appWrot : AppState := ⟨[userW], ⟨[⟨2, userW, "f", "t2", 10⟩]⟩⟩

/-- A session of `userW` that is already expired at time 50. -/
def sessExp : RefreshSession := ⟨1, userW, "f", "t", 50⟩

/-- System state holding only the expired session. -/
def appExp : AppState := ⟨[userW], ⟨[sessExp]⟩⟩

/-- System state where `userW` owns a session under fingerprint "g" with token
"t1" (used to exhibit a token collision on a later login from "f"). -/
def appCol : AppState := ⟨[userW], ⟨[⟨1, userW, "g", "t1", 100⟩]⟩⟩

/-- Interleaving exhibit, request A and request B both refreshing token "t":
both `findOne` lookups run before either `remove` (the store is unchanged by a
read), so both see `sessW`. -/
def stRm : Store := appW.store.remove sessW

/-- Request A's `getJWTs` over the store it left after its `remove`. -/
def resA : Except Err (Store × JWTs) := getJWTs envW 0 stRm sessW.user "f" 2 "ta"

/-- The store request A commits. -/
def stA : Store := ⟨[⟨2, userW, "f", "ta", 10⟩]⟩

/-- Request B's `remove` of the session it looked up earlier (a no-op now:
`sessW` is already gone, `remove` is idempotent). -/
def stBrm : Store := stA.remove sessW

/-- Request B's `getJWTs` over the store it left after its `remove`. -/
def resB : Except Err (Store × JWTs) := getJWTs envW 0 stBrm sessW.user "f" 3 "tb"

/-- The final store: two live sessions for the same (user, fingerprint). -/
def stFinal : Store := ⟨[⟨3, userW, "f", "tb", 10⟩, ⟨2, userW, "f", "ta", 10⟩]⟩
theorem two_le_countP_of_two_mem {α : Type} (P : α → Bool) :
    ∀ (l : List α) (x y : α), x ∈ l → y ∈ l → x ≠ y → P x → P y → 2 ≤ l.countP P := by
  intro l
  induction l with
  | nil => intro x y hx _ _ _ _; cases hx
  | cons a t ih =>
    intro x y hx hy hxy hPx hPy
    rw [List.countP_cons]
    rcases List.mem_cons.mp hx with hxa | hxt
    · rcases List.mem_cons.mp hy with hya | hyt
      · exact absurd (hxa.trans hya.symm) hxy
      · have h1 : 0 < t.countP P := List.countP_pos_iff.mpr ⟨y, hyt, hPy⟩
        have h2 : (if P a = true then 1 else 0) = 1 := by rw [if_pos (hxa ▸ hPx)]
        omega
    · rcases List.mem_cons.mp hy with hya | hyt
      · have h1 : 0 < t.countP P := List.countP_pos_iff.mpr ⟨x, hxt, hPx⟩
        have h2 : (if P a = true then 1 else 0) = 1 := by rw [if_pos (hya ▸ hPy)]
        omega
      · have h2 := ih x y hxt hyt hxy hPx hPy
        omega

theorem countP_remove_id_eq_zero (P : RefreshSession → Bool) (l : List RefreshSession)
    (s : RefreshSession) (hs : s ∈ l) (hP : P s) (h1 : l.countP P ≤ 1) :
    (l.filter (fun x => x.id != s.id)).countP P = 0 := by
  rw [List.countP_eq_zero]
  intro x hx hPx
  rcases List.mem_filter.mp hx with ⟨hxl, hid⟩
  have hne : x ≠ s := by
    intro he
    subst he
    simp at hid
  have := two_le_countP_of_two_mem P l x s hxl hs hne hPx hP
  omega

theorem countP_filter_le {α : Type} (P Q : α → Bool) (l : List α) :
    (l.filter Q).countP P ≤ l.countP P :=
  (List.filter_sublist l).countP_le P

theorem countActive_cons (st : Store) (ns : RefreshSession) (now : Int) (uid : Nat)
    (fp : String) :
    countActive ⟨ns :: st.sessions⟩ now uid fp =
      countActive st now uid fp +
        (if ns.user.id == uid && ns.fingerprint == fp && isActive now ns then 1 else 0) := by
  simp only [countActive, List.countP_cons]

theorem countActive_mono (st : Store) (now now2 : Int) (uid : Nat) (fp : String)
    (hle : now ≤ now2) : countActive st now2 uid fp ≤ countActive st now uid fp := by
  unfold countActive
  apply List.countP_mono_left
  intro s _ h
  simp only [Bool.and_eq_true, beq_iff_eq, isActive, decide_eq_true_eq] at h ⊢
  exact ⟨⟨h.1.1, h.1.2⟩, by omega⟩

theorem countActive_deleteByFingerprint (st : Store) (now : Int) (uid : Nat)
    (fp : String) : countActive (st.deleteByFingerprint fp) now uid fp = 0 := by
  rw [countActive, List.countP_eq_zero]
  intro s hs hP
  rcases List.mem_filter.mp hs with ⟨_, hfp⟩
  simp only [Bool.and_eq_true, beq_iff_eq] at hP
  simp [hP.1.2] at hfp

theorem countActive_filter_le (st : Store) (Q : RefreshSession → Bool) (now : Int)
    (uid : Nat) (fp : String) :
    countActive ⟨st.sessions.filter Q⟩ now uid fp ≤ countActive st now uid fp :=
  countP_filter_le _ Q st.sessions

theorem getJWTs_ok (env : Env) (now : Int) (st : Store) (user : User) (fp : String)
    (sid : Nat) (tok : String) (st2 : Store) (jwts : JWTs)
    (h : getJWTs env now st user fp sid tok = .ok (st2, jwts)) :
    st2.sessions = ⟨sid, user, fp, tok, now + env.refreshExpiresIn⟩ :: st.sessions ∧
      (∀ s ∈ st.sessions, s.token ≠ tok) ∧ jwts = ⟨env.sign user.id, tok⟩ := by
  unfold getJWTs at h
  cases hc : st.create ⟨sid, user, fp, tok, now + env.refreshExpiresIn⟩ with
  | error e => rw [hc] at h; simp at h
  | ok st3 =>
    rw [hc] at h
    simp only [Except.ok.injEq, Prod.mk.injEq] at h
    obtain ⟨h1, h2⟩ := h
    rw [Store.create] at hc
    split at hc
    · simp at hc
    · rename_i hany
      simp only [Except.ok.injEq] at hc
      subst h1
      subst hc
      refine ⟨rfl, ?_, h2.symm⟩
      intro s hs he
      exact hany (List.any_eq_true.mpr ⟨s, hs, by simp [he]⟩)

theorem getJWTs_error (env : Env) (now : Int) (st : Store) (user : User) (fp : String)
    (sid : Nat) (tok : String) (e : Err)
    (h : getJWTs env now st user fp sid tok = .error e) :
    e = .duplicateToken ∧ ∃ s ∈ st.sessions, s.token = tok := by
  unfold getJWTs at h
  cases hc : st.create ⟨sid, user, fp, tok, now + env.refreshExpiresIn⟩ with
  | ok st3 => rw [hc] at h; simp at h
  | error e2 =>
    rw [hc] at h
    simp only [Except.error.injEq] at h
    subst h
    rw [Store.create] at hc
    split at hc
    · rename_i hany
      simp only [Except.error.injEq] at hc
      rcases List.any_eq_true.mp hany with ⟨s, hs, he⟩
      exact ⟨hc.symm, s, hs, by simpa using he⟩
    · simp at hc

/-! ## Small facts about the store operations -/

theorem findOne_some (st : Store) (fp tk : String) (s : RefreshSession)
    (h : st.findOne fp tk = some s) :
    s ∈ st.sessions ∧ s.fingerprint = fp ∧ s.token = tk := by
  refine ⟨List.mem_of_find?_eq_some h, ?_⟩
  have := List.find?_some h
  simpa using this

theorem tokensUniq_filter (st : Store) (Q : RefreshSession → Bool) (h : TokensUniq st) :
    TokensUniq ⟨st.sessions.filter Q⟩ := by
  intro s1 h1 s2 h2
  exact h s1 (List.mem_filter.mp h1).1 s2 (List.mem_filter.mp h2).1

theorem tokensUniq_cons (st : Store) (ns : RefreshSession)
    (hfresh : ∀ s ∈ st.sessions, s.token ≠ ns.token) (h : TokensUniq st) :
    TokensUniq ⟨ns :: st.sessions⟩ := by
  intro s1 h1 s2 h2 he
  rcases List.mem_cons.mp h1 with e1 | m1
  · rcases List.mem_cons.mp h2 with e2 | m2
    · rw [e1, e2]
    · subst e1
      exact absurd he.symm (hfresh s2 m2)
  · rcases List.mem_cons.mp h2 with e2 | m2
    · subst e2
      exact absurd he (hfresh s1 m1)
    · exact h s1 m1 s2 m2 he

theorem countActive_eq_zero_of_no_user (st : Store) (now : Int) (uid : Nat) (fp : String)
    (h : ∀ s ∈ st.sessions, s.user.id ≠ uid) : countActive st now uid fp = 0 := by
  rw [countActive, List.countP_eq_zero]
  intro s hs hP
  simp only [Bool.and_eq_true, beq_iff_eq] at hP
  exact h s hs hP.1.1

/-! ## Success characterizations of the three issuing operations -/

theorem register_ok_spec (env : Env) (now : Int) (app : AppState) (dto : RegisterDto)
    (uid sid : Nat) (tok : String) (app2 : AppState) (out : UserPublicData)
    (h : register env now app dto uid sid tok = (app2, .ok out)) :
    app.users.find? (fun u => u.login == dto.login) = none ∧
      (let user : User := ⟨uid, dto.firstName, dto.lastName, dto.login,
        env.hashPassword dto.password⟩
      out = user.publicData ∧
        app2 = ⟨user :: app.users,
          ⟨⟨sid, user, dto.fingerprint, tok, now + env.refreshExpiresIn⟩ ::
            app.store.sessions⟩⟩ ∧
        ∀ s ∈ app.store.sessions, s.token ≠ tok) := by
  unfold register at h
  cases hf : app.users.find? (fun u => u.login == dto.login) with
  | some u => rw [hf] at h; simp at h
  | none =>
    rw [hf] at h
    simp only at h
    cases hg : getJWTs env now app.store
        ⟨uid, dto.firstName, dto.lastName, dto.login, env.hashPassword dto.password⟩
        dto.fingerprint sid tok with
    | error e => rw [hg] at h; simp at h
    | ok p =>
      rw [hg] at h
      obtain ⟨st2, jwts⟩ := p
      simp only [Prod.mk.injEq, Except.ok.injEq] at h
      obtain ⟨happ, hout⟩ := h
      obtain ⟨hsess, hfresh, _⟩ := getJWTs_ok _ _ _ _ _ _ _ _ _ hg
      refine ⟨rfl, hout.symm, ?_, hfresh⟩
      rw [← happ]
      have : st2 = ⟨st2.sessions⟩ := rfl
      rw [this, hsess]

theorem login_ok_spec (env : Env) (now : Int) (app : AppState) (dto : LoginDto)
    (sid : Nat) (tok : String) (app2 : AppState) (out : UserPublicData × JWTs)
    (h : login env now app dto sid tok = (app2, .ok out)) :
    ∃ user, app.users.find? (fun u => u.login == dto.login) = some user ∧
      env.comparePasswords dto.password user.password = true ∧
      out.1 = user.publicData ∧
      app2 = ⟨app.users,
        ⟨⟨sid, user, dto.fingerprint, tok, now + env.refreshExpiresIn⟩ ::
          (app.store.deleteByFingerprint dto.fingerprint).sessions⟩⟩ ∧
      ∀ s ∈ (app.store.deleteByFingerprint dto.fingerprint).sessions, s.token ≠ tok := by
  unfold login at h
  cases hf : app.users.find? (fun u => u.login == dto.login) with
  | none => rw [hf] at h; simp at h
  | some user =>
    rw [hf] at h
    simp only at h
    by_cases hcmp : env.comparePasswords dto.password user.password
    · rw [if_pos hcmp] at h
      cases hg : getJWTs env now (app.store.deleteByFingerprint dto.fingerprint) user
          dto.fingerprint sid tok with
      | error e => rw [hg] at h; simp at h
      | ok p =>
        rw [hg] at h
        obtain ⟨st2, jwts⟩ := p
        simp only [Prod.mk.injEq, Except.ok.injEq] at h
        obtain ⟨happ, hout⟩ := h
        obtain ⟨hsess, hfresh, _⟩ := getJWTs_ok _ _ _ _ _ _ _ _ _ hg
        refine ⟨user, rfl, hcmp, ?_, ?_, hfresh⟩
        · rw [← hout]
        · rw [← happ]
          have : st2 = ⟨st2.sessions⟩ := rfl
          rw [this, hsess]
    · rw [if_neg hcmp] at h
      simp at h

theorem refresh_ok_spec (env : Env) (now : Int) (app : AppState) (fp : String)
    (ctok : Option String) (sid : Nat) (tok : String) (app2 : AppState) (out : JWTs)
    (h : refreshTokens env now app fp ctok sid tok = (app2, .ok out)) :
    ∃ tk s, ctok = some tk ∧ tk ≠ "" ∧ app.store.findOne fp tk = some s ∧
      now < s.expiresAt ∧
      app2 = ⟨app.users,
        ⟨⟨sid, s.user, fp, tok, now + env.refreshExpiresIn⟩ ::
          (app.store.remove s).sessions⟩⟩ ∧
      (∀ x ∈ (app.store.remove s).sessions, x.token ≠ tok) ∧
      out = ⟨env.sign s.user.id, tok⟩ := by
  unfold refreshTokens at h
  cases ctok with
  | none => simp at h
  | some tk =>
    simp only at h
    by_cases hemp : tk = ""
    · rw [if_pos (by simp [hemp])] at h
      simp at h
    · rw [if_neg (by simpa using hemp)] at h
      cases hf : app.store.findOne fp tk with
      | none => rw [hf] at h; simp at h
      | some s =>
        rw [hf] at h
        simp only at h
        by_cases hexp : (0 : Int) ≤ now - s.expiresAt
        · rw [if_pos hexp] at h
          simp at h
        · rw [if_neg hexp] at h
          cases hg : getJWTs env now (app.store.remove s) s.user fp sid tok with
          | error e => rw [hg] at h; simp at h
          | ok p =>
            rw [hg] at h
            obtain ⟨st2, jwts⟩ := p
            simp only [Prod.mk.injEq, Except.ok.injEq] at h
            obtain ⟨happ, hout⟩ := h
            obtain ⟨hsess, hfresh, hjw⟩ := getJWTs_ok _ _ _ _ _ _ _ _ _ hg
            refine ⟨tk, s, rfl, hemp, hf, by omega, ?_, hfresh, ?_⟩
            · rw [← happ]
              have : st2 = ⟨st2.sessions⟩ := rfl
              rw [this, hsess]
            · rw [← hout, hjw]

/-! ## State characterizations of every branch of the operations -/

theorem register_state (env : Env) (now : Int) (app : AppState) (dto : RegisterDto)
    (uid sid : Nat) (tok : String) :
    (register env now app dto uid sid tok).1 = app ∨
      (let user : User := ⟨uid, dto.firstName, dto.lastName, dto.login,
        env.hashPassword dto.password⟩
      (register env now app dto uid sid tok).1 = ⟨user :: app.users, app.store⟩ ∨
        ((register env now app dto uid sid tok).1 = ⟨user :: app.users,
            ⟨⟨sid, user, dto.fingerprint, tok, now + env.refreshExpiresIn⟩ ::
              app.store.sessions⟩⟩ ∧
          ∀ s ∈ app.store.sessions, s.token ≠ tok)) := by
  unfold register
  cases hf : app.users.find? (fun u => u.login == dto.login) with
  | some u => exact Or.inl rfl
  | none =>
    simp only
    cases hg : getJWTs env now app.store
        ⟨uid, dto.firstName, dto.lastName, dto.login, env.hashPassword dto.password⟩
        dto.fingerprint sid tok with
    | error e => exact Or.inr (Or.inl rfl)
    | ok p =>
      obtain ⟨st2, jwts⟩ := p
      obtain ⟨hsess, hfresh, _⟩ := getJWTs_ok _ _ _ _ _ _ _ _ _ hg
      refine Or.inr (Or.inr ⟨?_, hfresh⟩)
      simp only
      have : st2 = ⟨st2.sessions⟩ := rfl
      rw [this, hsess]

theorem login_state (env : Env) (now : Int) (app : AppState) (dto : LoginDto)
    (sid : Nat) (tok : String) :
    (login env now app dto sid tok).1 = app ∨
      ∃ user, user ∈ app.users ∧
        ((login env now app dto sid tok).1 =
            ⟨app.users, app.store.deleteByFingerprint dto.fingerprint⟩ ∨
          ((login env now app dto sid tok).1 = ⟨app.users,
              ⟨⟨sid, user, dto.fingerprint, tok, now + env.refreshExpiresIn⟩ ::
                (app.store.deleteByFingerprint dto.fingerprint).sessions⟩⟩ ∧
            ∀ s ∈ (app.store.deleteByFingerprint dto.fingerprint).sessions,
              s.token ≠ tok)) := by
  unfold login
  cases hf : app.users.find? (fun u => u.login == dto.login) with
  | none => exact Or.inl rfl
  | some user =>
    simp only
    have huser : user ∈ app.users := List.mem_of_find?_eq_some hf
    by_cases hcmp : env.comparePasswords dto.password user.password
    · rw [if_pos hcmp]
      cases hg : getJWTs env now (app.store.deleteByFingerprint dto.fingerprint) user
          dto.fingerprint sid tok with
      | error e => exact Or.inr ⟨user, huser, Or.inl rfl⟩
      | ok p =>
        obtain ⟨st2, jwts⟩ := p
        obtain ⟨hsess, hfresh, _⟩ := getJWTs_ok _ _ _ _ _ _ _ _ _ hg
        refine Or.inr ⟨user, huser, Or.inr ⟨?_, hfresh⟩⟩
        simp only
        have : st2 = ⟨st2.sessions⟩ := rfl
        rw [this, hsess]
    · rw [if_neg hcmp]
      exact Or.inl rfl

theorem refresh_state (env : Env) (now : Int) (app : AppState) (fp : String)
    (ctok : Option String) (sid : Nat) (tok : String) :
    (refreshTokens env now app fp ctok sid tok).1 = app ∨
      ∃ s, s ∈ app.store.sessions ∧ s.fingerprint = fp ∧ now < s.expiresAt ∧
        ((refreshTokens env now app fp ctok sid tok).1 = ⟨app.users, app.store.remove s⟩ ∨
          ((refreshTokens env now app fp ctok sid tok).1 = ⟨app.users,
              ⟨⟨sid, s.user, fp, tok, now + env.refreshExpiresIn⟩ ::
                (app.store.remove s).sessions⟩⟩ ∧
            ∀ x ∈ (app.store.remove s).sessions, x.token ≠ tok)) := by
  unfold refreshTokens
  cases ctok with
  | none => exact Or.inl rfl
  | some tk =>
    simp only
    by_cases hemp : (tk == "") = true
    · rw [if_pos hemp]
      exact Or.inl rfl
    · rw [if_neg hemp]
      cases hf : app.store.findOne fp tk with
      | none => exact Or.inl rfl
      | some s =>
        simp only
        obtain ⟨hmem, hfp, _⟩ := findOne_some _ _ _ _ hf
        by_cases hexp : (0 : Int) ≤ now - s.expiresAt
        · rw [if_pos hexp]
          exact Or.inl rfl
        · rw [if_neg hexp]
          cases hg : getJWTs env now (app.store.remove s) s.user fp sid tok with
          | error e => exact Or.inr ⟨s, hmem, hfp, by omega, Or.inl rfl⟩
          | ok p =>
            obtain ⟨st2, jwts⟩ := p
            obtain ⟨hsess, hfresh, _⟩ := getJWTs_ok _ _ _ _ _ _ _ _ _ hg
            refine Or.inr ⟨s, hmem, hfp, by omega, Or.inr ⟨?_, hfresh⟩⟩
            simp only
            have : st2 = ⟨st2.sessions⟩ := rfl
            rw [this, hsess]

/-! ## Preservation of the invariant -/

theorem counts_le_one_cons (stB : Store) (ns : RefreshSession) (now : Int)
    (hB : ∀ uid fp, countActive stB now uid fp ≤ 1)
    (hz : countActive stB now ns.user.id ns.fingerprint = 0) :
    ∀ uid fp, countActive ⟨ns :: stB.sessions⟩ now uid fp ≤ 1 := by
  intro uid fp
  rw [countActive_cons]
  split
  · rename_i hc
    simp only [Bool.and_eq_true, beq_iff_eq] at hc
    have hzz : countActive stB now uid fp = 0 := by
      rw [← hc.1.1, ← hc.1.2]
      exact hz
    omega
  · have := hB uid fp
    omega

theorem counts_one_cons (stB : Store) (ns : RefreshSession) (now : Int)
    (hz : countActive stB now ns.user.id ns.fingerprint = 0)
    (hact : isActive now ns = true) :
    countActive ⟨ns :: stB.sessions⟩ now ns.user.id ns.fingerprint = 1 := by
  rw [countActive_cons, hz]
  simp [hact]

theorem countActive_remove_eq_zero (st : Store) (s : RefreshSession) (now : Int) (fp : String)
    (hs : s ∈ st.sessions) (hfp : s.fingerprint = fp) (hact : now < s.expiresAt)
    (h1 : countActive st now s.user.id fp ≤ 1) :
    countActive (st.remove s) now s.user.id fp = 0 := by
  have hP : (fun x : RefreshSession =>
      x.user.id == s.user.id && x.fingerprint == fp && isActive now x) s = true := by
    simp [isActive, hfp, hact]
  exact countP_remove_id_eq_zero _ st.sessions s hs hP h1

theorem sysInv_register_step (env : Env) (now : Int) (app : AppState) (dto : RegisterDto)
    (uid sid : Nat) (tok : String) (h : SysInv app now)
    (hfresh : ∀ u ∈ app.users, u.id ≠ uid) :
    SysInv (register env now app dto uid sid tok).1 now := by
  obtain ⟨husers, huniq, hcount⟩ := h
  rcases register_state env now app dto uid sid tok with he | he | ⟨he, hfr⟩
  · rw [he]
    exact ⟨husers, huniq, hcount⟩
  · rw [he]
    refine ⟨?_, huniq, hcount⟩
    intro s hs
    exact List.mem_cons_of_mem _ (husers s hs)
  · rw [he]
    refine ⟨?_, tokensUniq_cons app.store _ hfr huniq, ?_⟩
    · intro s hs
      rcases List.mem_cons.mp hs with e | m
      · rw [e]
        exact List.mem_cons_self _ _
      · exact List.mem_cons_of_mem _ (husers s m)
    · refine counts_le_one_cons app.store _ now hcount ?_
      refine countActive_eq_zero_of_no_user app.store now uid dto.fingerprint ?_
      intro s hs
      exact hfresh s.user (husers s hs)

theorem sysInv_login_step (env : Env) (now : Int) (app : AppState) (dto : LoginDto)
    (sid : Nat) (tok : String) (h : SysInv app now) :
    SysInv (login env now app dto sid tok).1 now := by
  obtain ⟨husers, huniq, hcount⟩ := h
  have hBcount : ∀ uid fp, countActive (app.store.deleteByFingerprint dto.fingerprint) now uid fp ≤ 1 :=
    fun uid fp => le_trans (countActive_filter_le app.store _ now uid fp) (hcount uid fp)
  have hBusers : ∀ s ∈ (app.store.deleteByFingerprint dto.fingerprint).sessions, s.user ∈ app.users :=
    fun s hs => husers s (List.mem_filter.mp hs).1
  have hBuniq : TokensUniq (app.store.deleteByFingerprint dto.fingerprint) :=
    tokensUniq_filter app.store _ huniq
  rcases login_state env now app dto sid tok with he | ⟨user, huser, he | ⟨he, hfr⟩⟩
  · rw [he]
    exact ⟨husers, huniq, hcount⟩
  · rw [he]
    exact ⟨hBusers, hBuniq, hBcount⟩
  · rw [he]
    refine ⟨?_, tokensUniq_cons _ _ hfr hBuniq, ?_⟩
    · intro s hs
      rcases List.mem_cons.mp hs with e | m
      · rw [e]
        exact huser
      · exact hBusers s m
    · refine counts_le_one_cons _ _ now hBcount ?_
      exact countActive_deleteByFingerprint app.store now user.id dto.fingerprint

theorem sysInv_refresh_step (env : Env) (now : Int) (app : AppState) (fp : String)
    (ctok : Option String) (sid : Nat) (tok : String) (h : SysInv app now) :
    SysInv (refreshTokens env now app fp ctok sid tok).1 now := by
  obtain ⟨husers, huniq, hcount⟩ := h
  rcases refresh_state env now app fp ctok sid tok with he | ⟨s, hmem, hfp, hact, he | ⟨he, hfr⟩⟩
  · rw [he]
    exact ⟨husers, huniq, hcount⟩
  all_goals {
    have hBcount : ∀ uid fp2, countActive (app.store.remove s) now uid fp2 ≤ 1 :=
      fun uid fp2 => le_trans (countActive_filter_le app.store _ now uid fp2) (hcount uid fp2)
    have hBusers : ∀ x ∈ (app.store.remove s).sessions, x.user ∈ app.users :=
      fun x hx => husers x (List.mem_filter.mp hx).1
    have hBuniq : TokensUniq (app.store.remove s) := tokensUniq_filter app.store _ huniq
    first
    | (rw [he]; exact ⟨hBusers, hBuniq, hBcount⟩)
    | (rw [he]
       refine ⟨?_, tokensUniq_cons _ _ hfr hBuniq, ?_⟩
       · intro x hx
         rcases List.mem_cons.mp hx with e | m
         · rw [e]
           exact husers s hmem
         · exact hBusers x m
       · refine counts_le_one_cons _ _ now hBcount ?_
         exact countActive_remove_eq_zero app.store s now fp hmem hfp hact (hcount s.user.id fp))
  }

theorem sysInv_logout_step (app : AppState) (now : Int) (tok : String) (h : SysInv app now) :
    SysInv (logout app tok).1 now := by
  obtain ⟨husers, huniq, hcount⟩ := h
  refine ⟨?_, tokensUniq_filter app.store _ huniq, ?_⟩
  · intro s hs
    exact husers s (List.mem_filter.mp hs).1
  · intro uid fp
    exact le_trans (countActive_filter_le app.store _ now uid fp) (hcount uid fp)

theorem reach_sysInv (env : Env) (app : AppState) (now : Int) (h : Reach env app now) :
    SysInv app now := by
  induction h with
  | init now =>
    refine ⟨?_, ?_, ?_⟩
    · intro s hs
      cases hs
    · intro s1 h1
      cases h1
    · intro uid fp
      simp [countActive]
  | tick app now now2 hr hle ih =>
    exact ⟨ih.1, ih.2.1, fun uid fp => le_trans (countActive_mono _ _ _ _ _ hle) (ih.2.2 uid fp)⟩
  | stepRegister app now dto uid sid tok hr hfresh ih =>
    exact sysInv_register_step env now app dto uid sid tok ih hfresh
  | stepLogin app now dto sid tok hr ih =>
    exact sysInv_login_step env now app dto sid tok ih
  | stepRefresh app now fp ctok sid tok hr ih =>
    exact sysInv_refresh_step env now app fp ctok sid tok ih
  | stepLogout app now tok hr ih =>
    exact sysInv_logout_step app now tok ih

/-! ## Claim C1 -/

/-- Claim C1: in every reachable store state, every (user, fingerprint) pair has
at most one non-expired RefreshSession, and after any successful `IssueSession`
(`getJWTs`) performed by register, login or refresh, exactly one Active session
exists for that pair; every public operation preserves this invariant (the
invariant is stated over `Reach`, the closure of the empty state under the
public operations at non-decreasing times). -/
theorem claim_C1_unique_active_session (env : Env) (app : AppState) (now : Int)
    (hreach : Reach env app now) (hpos : 0 < env.refreshExpiresIn) :
    (∀ uid fp, countActive app.store now uid fp ≤ 1) ∧
      (∀ dto uid sid tok app2 out,
        (∀ u ∈ app.users, u.id ≠ uid) →
        register env now app dto uid sid tok = (app2, .ok out) →
        countActive app2.store now uid dto.fingerprint = 1) ∧
      (∀ dto sid tok app2 out,
        login env now app dto sid tok = (app2, .ok out) →
        countActive app2.store now out.1.id dto.fingerprint = 1) ∧
      (∀ fp tk sid tok app2 out s,
        refreshTokens env now app fp (some tk) sid tok = (app2, .ok out) →
        app.store.findOne fp tk = some s →
        countActive app2.store now s.user.id fp = 1) := by
  obtain ⟨husers, huniq, hcount⟩ := reach_sysInv env app now hreach
  refine ⟨hcount, ?_, ?_, ?_⟩
  · intro dto uid sid tok app2 out hfresh hrun
    obtain ⟨-, -, happ, -⟩ := register_ok_spec env now app dto uid sid tok app2 out hrun
    rw [happ]
    refine counts_one_cons app.store _ now ?_ ?_
    · refine countActive_eq_zero_of_no_user app.store now uid dto.fingerprint ?_
      intro s hs
      exact hfresh s.user (husers s hs)
    · simp only [isActive, decide_eq_true_eq]
      omega
  · intro dto sid tok app2 out hrun
    obtain ⟨user, -, -, hout, happ, -⟩ := login_ok_spec env now app dto sid tok app2 out hrun
    rw [happ, hout]
    refine counts_one_cons _ _ now ?_ ?_
    · exact countActive_deleteByFingerprint app.store now user.id dto.fingerprint
    · simp only [isActive, decide_eq_true_eq]
      omega
  · intro fp tk sid tok app2 out s hrun hfind
    obtain ⟨tk2, s2, hctok, -, hfind2, hact, happ, -, -⟩ :=
      refresh_ok_spec env now app fp (some tk) sid tok app2 out hrun
    have htk : tk2 = tk := by
      injection hctok.symm
    subst htk
    rw [hfind] at hfind2
    injection hfind2 with hs2
    subst hs2
    obtain ⟨hmem, hfp, -⟩ := findOne_some _ _ _ _ hfind
    rw [happ]
    refine counts_one_cons _ _ now ?_ ?_
    · exact countActive_remove_eq_zero app.store s now fp hmem hfp hact (hcount s.user.id fp)
    · simp only [isActive, decide_eq_true_eq]
      omega

/-- Witness for C1: the invariant bound evaluated from the reachable empty
state at a concrete pair. -/
theorem claim_C1_unique_active_session_witness :
    countActive app0.store 0 1 "device" ≤ 1 :=
  (claim_C1_unique_active_session envW app0 0 (Reach.init 0) (by decide)).1 1 "device"

/-! ## Claim C2 -/

/-- Claim C2: every successful Refresh deletes the matched session from the
store before the new pair is issued, creates the new session for the same user
and fingerprint, and a subsequent Refresh presenting the consumed token fails
with InvalidRefreshToken at any later time (single-use rotation), given that
stored tokens are pairwise distinct (as `create` enforces) and the freshly
generated token differs from the consumed one (as a fresh uuid does). -/
theorem claim_C2_single_use_rotation (env : Env) (now : Int) (app : AppState)
    (fp tk : String) (sid : Nat) (ftok : String) (app2 : AppState) (out : JWTs)
    (huniq : TokensUniq app.store)
    (hrun : refreshTokens env now app fp (some tk) sid ftok = (app2, .ok out))
    (hfreshtok : ftok ≠ tk) :
    ∃ s, app.store.findOne fp tk = some s ∧
      s ∉ (app.store.remove s).sessions ∧
      app2.store.sessions = ⟨sid, s.user, fp, ftok, now + env.refreshExpiresIn⟩ ::
        (app.store.remove s).sessions ∧
      out.refreshToken = ftok ∧
      ∀ now2 sid2 ftok2,
        (refreshTokens env now2 app2 fp (some tk) sid2 ftok2).2 =
          .error (.badRequest "Invalid refresh token") := by
  obtain ⟨tk2, s, hctok, htkne, hfind, hact, happ, hfr, hout⟩ :=
    refresh_ok_spec env now app fp (some tk) sid ftok app2 out hrun
  have htkeq : tk = tk2 := by injection hctok
  subst htkeq
  obtain ⟨hmem, hfp, htok⟩ := findOne_some _ _ _ _ hfind
  refine ⟨s, hfind, ?_, ?_, ?_, ?_⟩
  · intro hin
    have := (List.mem_filter.mp hin).2
    simp at this
  · rw [happ]
  · rw [hout]
  · intro now2 sid2 ftok2
    have hnone : app2.store.findOne fp tk = none := by
      rw [happ]
      unfold Store.findOne
      apply List.find?_eq_none.mpr
      intro x hx
      rcases List.mem_cons.mp hx with e | m
      · subst e
        simp [hfreshtok]
      · rcases List.mem_filter.mp m with ⟨hxl, hid⟩
        intro hpred
        simp only [Bool.and_eq_true, beq_iff_eq] at hpred
        have hxs : x = s := huniq x hxl s hmem (hpred.2.trans htok.symm)
        subst hxs
        simp at hid
    unfold refreshTokens
    simp only
    rw [if_neg (by simpa using htkne), hnone]

/-- Witness for C2: the concrete state `appW` rotated at time 0. -/
theorem claim_C2_single_use_rotation_witness :
    ∃ s, appW.store.findOne "f" "t" = some s ∧
      s ∉ (appW.store.remove s).sessions ∧
      appWrot.store.sessions = ⟨2, s.user, "f", "t2", (0 : Int) + envW.refreshExpiresIn⟩ ::
        (appW.store.remove s).sessions ∧
      (JWTs.mk "acc1" "t2").refreshToken = "t2" ∧
      ∀ now2 sid2 ftok2,
        (refreshTokens envW now2 appWrot "f" (some "t") sid2 ftok2).2 =
          .error (.badRequest "Invalid refresh token") :=
  claim_C2_single_use_rotation envW 0 appW "f" "t" 2 "t2" appWrot ⟨"acc1", "t2"⟩
    (by intro s1 h1 s2 h2 he; simp [appW] at h1 h2; rw [h1, h2]) rfl (by decide)

/-! ## Claim C3 -/

/-- Claim C3: for a presented (non-empty) token, Refresh fails with
InvalidRefreshToken exactly when no stored session matches both token and
fingerprint or the matched session's expiry has been reached; and when a match
exists, is not yet expired, and the freshly generated token does not collide,
the refresh succeeds. -/
theorem claim_C3_invalid_token_iff (env : Env) (now : Int) (app : AppState)
    (fp tk : String) (sid : Nat) (ftok : String) (hne : tk ≠ "") :
    ((refreshTokens env now app fp (some tk) sid ftok).2 =
        .error (.badRequest "Invalid refresh token") ↔
      ∀ s, app.store.findOne fp tk = some s → s.expiresAt ≤ now) ∧
    (∀ s, app.store.findOne fp tk = some s → now < s.expiresAt →
      (∀ x ∈ (app.store.remove s).sessions, x.token ≠ ftok) →
      ∃ jwts, (refreshTokens env now app fp (some tk) sid ftok).2 = .ok jwts) := by
  unfold refreshTokens
  simp only
  rw [if_neg (by simpa using hne)]
  cases hf : app.store.findOne fp tk with
  | none =>
    constructor
    · constructor
      · intro _ s hs
        simp at hs
      · intro _
        rfl
    · intro s hs
      simp at hs
  | some s =>
    simp only
    by_cases hexp : (0 : Int) ≤ now - s.expiresAt
    · rw [if_pos hexp]
      constructor
      · constructor
        · intro _ s2 hs2
          injection hs2 with he
          subst he
          omega
        · intro _
          rfl
      · intro s2 hs2 hact
        injection hs2 with he
        subst he
        omega
    · rw [if_neg hexp]
      cases hg : getJWTs env now (app.store.remove s) s.user fp sid ftok with
      | error e =>
        obtain ⟨hdup, x, hx, hxtok⟩ := getJWTs_error _ _ _ _ _ _ _ _ hg
        subst hdup
        constructor
        · constructor
          · intro hcontra
            simp at hcontra
          · intro hall
            have := hall s rfl
            omega
        · intro s2 hs2 hact hnocol
          injection hs2 with he
          subst he
          exact absurd hxtok (hnocol x hx)
      | ok p =>
        obtain ⟨st2, jwts⟩ := p
        constructor
        · constructor
          · intro hcontra
            simp at hcontra
          · intro hall
            have := hall s rfl
            omega
        · intro s2 hs2 hact hnocol
          exact ⟨jwts, rfl⟩

/-- Witness for C3: the iff evaluated on the concrete live-session state. -/
theorem claim_C3_invalid_token_iff_witness :
    (((refreshTokens envW 0 appW "f" (some "t") 2 "t2").2 =
        .error (.badRequest "Invalid refresh token") ↔
      ∀ s, appW.store.findOne "f" "t" = some s → s.expiresAt ≤ 0) ∧
    (∀ s, appW.store.findOne "f" "t" = some s → 0 < s.expiresAt →
      (∀ x ∈ (appW.store.remove s).sessions, x.token ≠ "t2") →
      ∃ jwts, (refreshTokens envW 0 appW "f" (some "t") 2 "t2").2 = .ok jwts)) :=
  claim_C3_invalid_token_iff envW 0 appW "f" "t" 2 "t2" (by decide)

/-! ## Claim C4 -/

/-- Claim C4: a login with a nonexistent login and a login with an existing
login but non-matching password return the very same failure value — the same
`BadRequestException("Invalid credentials.")` and the same untouched state —
so the two causes are indistinguishable to the caller. -/
theorem claim_C4_invalid_credentials_indistinguishable (env : Env) (now : Int)
    (app : AppState) (dto : LoginDto) (sid : Nat) (ftok : String)
    (h : app.users.find? (fun u => u.login == dto.login) = none ∨
      ∃ user, app.users.find? (fun u => u.login == dto.login) = some user ∧
        env.comparePasswords dto.password user.password = false) :
    login env now app dto sid ftok = (app, .error (.badRequest "Invalid credentials.")) := by
  unfold login
  rcases h with hnone | ⟨user, hsome, hcmp⟩
  · rw [hnone]
  · rw [hsome]
    simp only
    rw [if_neg (by simp [hcmp])]

/-- Witness for C4: a wrong password against `userW` yields the same result
value as a lookup miss. -/
theorem claim_C4_invalid_credentials_indistinguishable_witness :
    login envW 0 appW ⟨"ada", "wrong", "f"⟩ 2 "t2" =
      (appW, .error (.badRequest "Invalid credentials.")) :=
  claim_C4_invalid_credentials_indistinguishable envW 0 appW ⟨"ada", "wrong", "f"⟩ 2 "t2"
    (Or.inr ⟨userW, by decide, by decide⟩)

/-! ## Claim C5 -/

/-- Counterexample to C5: at time 50 the stored session `sessExp` has expired;
the refresh that looks it up fails, but the expired session is still in the
store afterwards — it is not deleted at lookup time. -/
theorem claim_C5_counterexample :
    (refreshTokens envW 50 appExp "f" (some "t") 2 "t2").2 =
        .error (.badRequest "Invalid refresh token") ∧
      sessExp ∈ (refreshTokens envW 50 appExp "f" (some "t") 2 "t2").1.store.sessions := by
  constructor
  · rfl
  · rw [show (refreshTokens envW 50 appExp "f" (some "t") 2 "t2").1 = appExp from rfl]
    exact List.mem_singleton.mpr rfl

/-- Claim C5 as amended: expiry is a judgment made at lookup time by comparing
`expiresAt` with the current time; the failed Refresh leaves the whole state
unchanged, so the expired session remains in the store (it is not removed
lazily). -/
theorem claim_C5_expired_session_kept (env : Env) (now : Int) (app : AppState)
    (fp tk : String) (sid : Nat) (ftok : String) (s : RefreshSession)
    (hfind : app.store.findOne fp tk = some s) (hexp : s.expiresAt ≤ now)
    (hne : tk ≠ "") :
    refreshTokens env now app fp (some tk) sid ftok =
        (app, .error (.badRequest "Invalid refresh token")) ∧
      s ∈ app.store.sessions := by
  refine ⟨?_, (findOne_some _ _ _ _ hfind).1⟩
  unfold refreshTokens
  simp only
  rw [if_neg (by simpa using hne), hfind]
  simp only
  rw [if_pos (by omega)]

/-- Witness for the amended C5: the expired concrete session stays stored. -/
theorem claim_C5_expired_session_kept_witness :
    refreshTokens envW 50 appExp "f" (some "t") 2 "t2" =
        (appExp, .error (.badRequest "Invalid refresh token")) ∧
      sessExp ∈ appExp.store.sessions :=
  claim_C5_expired_session_kept envW 50 appExp "f" "t" 2 "t2" sessExp rfl
    (by decide) (by decide)

/-! ## Claim C6 -/

/-- Claim C6: logout always succeeds, is idempotent, deletes exactly the
sessions whose token equals the presented token (no fingerprint required),
leaves the state untouched when no session matches, and afterwards the
presented token can never be redeemed by Refresh. -/
theorem claim_C6_logout_idempotent_total (app : AppState) (tk : String) :
    (logout app tk).2 = .ok () ∧
      logout (logout app tk).1 tk = ((logout app tk).1, .ok ()) ∧
      (∀ s ∈ app.store.sessions, s ∈ (logout app tk).1.store.sessions ↔ s.token ≠ tk) ∧
      ((∀ s ∈ app.store.sessions, s.token ≠ tk) → (logout app tk).1 = app) ∧
      ∀ env now fp sid ftok,
        (refreshTokens env now (logout app tk).1 fp (some tk) sid ftok).2 =
          .error (.badRequest "Invalid refresh token") := by
  refine ⟨rfl, ?_, ?_, ?_, ?_⟩
  · simp [logout, Store.deleteByToken, List.filter_filter]
  · intro s hs
    constructor
    · intro hin
      have := (List.mem_filter.mp hin).2
      simpa using this
    · intro hne
      exact List.mem_filter.mpr ⟨hs, by simpa using hne⟩
  · intro hall
    have hfe : app.store.sessions.filter (fun s => s.token != tk) = app.store.sessions :=
      List.filter_eq_self.mpr (fun s hs => by simpa using hall s hs)
    show (⟨app.users, ⟨app.store.sessions.filter (fun s => s.token != tk)⟩⟩ : AppState) = app
    rw [hfe]
  · intro env now fp sid ftok
    unfold refreshTokens
    simp only
    by_cases hemp : (tk == "") = true
    · rw [if_pos hemp]
    · rw [if_neg hemp]
      have hnone : (logout app tk).1.store.findOne fp tk = none := by
        unfold Store.findOne
        apply List.find?_eq_none.mpr
        intro x hx
        have := (List.mem_filter.mp hx).2
        intro hpred
        simp only [Bool.and_eq_true, beq_iff_eq] at hpred
        simp [hpred.2] at this
      rw [hnone]

/-! ## Claim C7 -/

/-- Claim C7: `findUserByAccessToken` never raises on any input token — when
the verifier fails (bad signature, expired, malformed), it returns the
"no identity" result `none` instead of propagating the failure. -/
theorem claim_C7_resolve_identity_total (verifyTok : String → Option Nat)
    (users : List User) (token : String) (hfail : verifyTok token = none) :
    findUserByAccessToken verifyTok users token = none := by
  unfold findUserByAccessToken
  rw [hfail]

/-- Witness for C7: a verifier that rejects everything yields `none` on a
concrete token. -/
theorem claim_C7_resolve_identity_total_witness :
    findUserByAccessToken (fun _ => none) [userW] "garbage" = none :=
  claim_C7_resolve_identity_total (fun _ => none) [userW] "garbage" rfl

/-! ## Claim C8 -/

/-- Claim C8: the pre-issue cleanup of a successful login deletes every stored
session whose fingerprint equals the supplied one regardless of owning user,
keeps every session with a different fingerprint, and the final store is the
new session consed onto the cleaned store. -/
theorem claim_C8_login_cleanup_by_fingerprint_only (env : Env) (now : Int)
    (app : AppState) (dto : LoginDto) (sid : Nat) (ftok : String) (app2 : AppState)
    (out : UserPublicData × JWTs)
    (hrun : login env now app dto sid ftok = (app2, .ok out)) :
    (∀ s ∈ app.store.sessions, s.fingerprint = dto.fingerprint →
      s ∉ (app.store.deleteByFingerprint dto.fingerprint).sessions) ∧
      (∀ s ∈ app.store.sessions, s.fingerprint ≠ dto.fingerprint →
        s ∈ (app.store.deleteByFingerprint dto.fingerprint).sessions ∧
          s ∈ app2.store.sessions) ∧
      ∃ ns, ns.fingerprint = dto.fingerprint ∧
        app2.store.sessions = ns ::
          (app.store.deleteByFingerprint dto.fingerprint).sessions := by
  obtain ⟨user, -, -, -, happ, -⟩ := login_ok_spec env now app dto sid ftok app2 out hrun
  refine ⟨?_, ?_, ?_⟩
  · intro s hs hfp hin
    have := (List.mem_filter.mp hin).2
    simp [hfp] at this
  · intro s hs hfp
    have hin : s ∈ (app.store.deleteByFingerprint dto.fingerprint).sessions :=
      List.mem_filter.mpr ⟨hs, by simpa using hfp⟩
    refine ⟨hin, ?_⟩
    rw [happ]
    exact List.mem_cons_of_mem _ hin
  · refine ⟨⟨sid, user, dto.fingerprint, ftok, now + env.refreshExpiresIn⟩, rfl, ?_⟩
    rw [happ]

/-- Witness for C8: concrete login over `appW` (whose stored session has
fingerprint "f") from fingerprint "g". -/
theorem claim_C8_login_cleanup_by_fingerprint_only_witness :
    (∀ s ∈ appW.store.sessions, s.fingerprint = "g" →
      s ∉ (appW.store.deleteByFingerprint "g").sessions) ∧
      (∀ s ∈ appW.store.sessions, s.fingerprint ≠ "g" →
        s ∈ (appW.store.deleteByFingerprint "g").sessions ∧
          s ∈ (AppState.mk [userW] ⟨[⟨2, userW, "g", "t2", 10⟩, sessW]⟩).store.sessions) ∧
      ∃ ns, ns.fingerprint = "g" ∧
        (AppState.mk [userW] ⟨[⟨2, userW, "g", "t2", 10⟩, sessW]⟩).store.sessions =
          ns :: (appW.store.deleteByFingerprint "g").sessions :=
  claim_C8_login_cleanup_by_fingerprint_only envW 0 appW ⟨"ada", "pw", "g"⟩ 2 "t2"
    ⟨[userW], ⟨[⟨2, userW, "g", "t2", 10⟩, sessW]⟩⟩ ⟨userW.publicData, ⟨"acc1", "t2"⟩⟩ rfl

/-! ## Claim C9 -/

/-- Counterexample to C9: a successful login whose freshly generated token
collides with a stored session of a different fingerprint surfaces
`duplicateToken` to the caller — `getJWTs` performs no retry. -/
theorem claim_C9_counterexample :
    (login envW 0 appCol ⟨"ada", "pw", "f"⟩ 2 "t1").2 = .error Err.duplicateToken := rfl

/-- Claim C9 as amended: when `createSession` reports a token collision,
`getJWTs` does not retry with a new token; the `DuplicateToken` failure is
returned as is, and so propagates to the caller of register, login or
refresh. -/
theorem claim_C9_duplicate_token_propagates (env : Env) (now : Int) (st : Store)
    (user : User) (fp : String) (sid : Nat) (ftok : String)
    (hcol : ∃ s ∈ st.sessions, s.token = ftok) :
    getJWTs env now st user fp sid ftok = .error .duplicateToken := by
  obtain ⟨s, hs, he⟩ := hcol
  unfold getJWTs Store.create
  rw [if_pos (List.any_eq_true.mpr ⟨s, hs, by simp [he]⟩)]

/-- Witness for the amended C9: the concrete collision on token "t1". -/
theorem claim_C9_duplicate_token_propagates_witness :
    getJWTs envW 0 appCol.store userW "f" 2 "t1" = .error .duplicateToken :=
  claim_C9_duplicate_token_propagates envW 0 appCol.store userW "f" 2 "t1"
    ⟨⟨1, userW, "g", "t1", 100⟩, by decide, rfl⟩

/-! ## Claim C10 -/

/-- Claim C10 fails on the code: the handler has no transaction or atomicity
guard around its three awaited store calls, so in the interleaving where both
concurrent Refresh calls run `findOne` before either runs `remove`, both pass
the expiry check on the session they read, both `remove` calls succeed (the
second is a no-op), both `getJWTs` calls succeed, and the final store holds
two live sessions for the same (user, fingerprint) — instead of exactly one
call succeeding and the other observing InvalidRefreshToken. -/
theorem claim_C10_both_refreshes_succeed :
    appW.store.findOne "f" "t" = some sessW ∧
      ¬ (0 : Int) ≤ 0 - sessW.expiresAt ∧
      resA = .ok (stA, ⟨"acc1", "ta"⟩) ∧
      resB = .ok (stFinal, ⟨"acc1", "tb"⟩) ∧
      stFinal.sessions.length = 2 ∧
      countActive stFinal 0 userW.id "f" = 2 :=
  ⟨rfl, by decide, rfl, rfl, rfl, by decide⟩
